import Mathlib

/-!
Verification of the glimpse CLI repository against its specification.

The embedding below translates the TypeScript sources into Lean:
JavaScript strings become `List Char` (the codes and messages involved are
ASCII, and `String.prototype.toUpperCase` is modelled by `Char.toUpper`,
which performs exactly the basic-latin uppercasing relevant here),
`Date` values become their millisecond count as `Int`, and fallible
operations return `Except` or `Option`.
-/

/-! ## src/utils/code-generator.ts -/

/-- The constant `CROCKFORD_ALPHABET = "0123456789ABCDEFGHJKMNPQRSTVWXYZ"`
from src/utils/code-generator.ts, as its list of characters. -/
def CROCKFORD_ALPHABET : List Char :=
  ['0', '1', '2', '3', '4', '5', '6', '7', '8', '9',
   'A', 'B', 'C', 'D', 'E', 'F', 'G', 'H', 'J', 'K',
   'M', 'N', 'P', 'Q', 'R', 'S', 'T', 'V', 'W', 'X', 'Y', 'Z']

/-- Loop body of `generateCode`: `i` is the loop counter, the list holds the
remaining random bytes (`bytes[i] % CROCKFORD_ALPHABET.length` indexes the
alphabet), and after emitting symbol `i` the separator is appended when
`i === separatorPosition - 1 && i < length - 1`.  The position is an `Int`
because it is a JavaScript number: for `separatorPosition = 0` the test
`i === -1` never fires. -/
def generateCodeAux (separator : List Char) (separatorPosition : Int)
    (length : Nat) : Nat → List Nat → List Char
  | _, [] => []
  | i, b :: rest =>
    CROCKFORD_ALPHABET.getD (b % CROCKFORD_ALPHABET.length) '0'
      :: ((if (i : Int) = separatorPosition - 1 ∧ i < length - 1
           then separator else [])
          ++ generateCodeAux separator separatorPosition length (i + 1) rest)

/-- The function `generateCode(length, separator, separatorPosition)` from
src/utils/code-generator.ts.  The drawn random bytes are passed explicitly
(`bytes` has `length` entries, each a `Uint8Array` cell, so the code is a
function of the bytes actually drawn); the defaults at the call sites are
`separator = "-"` and `separatorPosition = 4` with `length = 8`. -/
def generateCode (bytes : List Nat) (separator : List Char)
    (separatorPosition : Int) : List Char :=
  generateCodeAux separator separatorPosition bytes.length 0 bytes

/-- The symbols of the code without any separator: byte `b` is rendered as
`CROCKFORD_ALPHABET[b % 32]`. -/
def codeSymbols (bytes : List Nat) : List Char :=
  bytes.map (fun b => CROCKFORD_ALPHABET.getD (b % CROCKFORD_ALPHABET.length) '0')

/-- The function `validateCode(code)` from src/utils/code-generator.ts:
strip `-`, uppercase, and check every remaining character against the
alphabet (`Array.prototype.includes` is `List.contains`). -/
def validateCode (code : List Char) : Bool :=
  let cleanCode := (code.filter (fun c => c != '-')).map Char.toUpper
  cleanCode.all (fun c => CROCKFORD_ALPHABET.contains c)

/-- The function `normalizeCode(code)` from src/utils/code-generator.ts:
strip `-` and uppercase. -/
def normalizeCode (code : List Char) : List Char :=
  (code.filter (fun c => c != '-')).map Char.toUpper

/-! ### Character-level helper lemmas -/

theorem toNat_ofNat_of_lt {n : Nat} (h : n < 55296) : (Char.ofNat n).toNat = n := by
  have hv : n.isValidChar := Or.inl h
  rw [Char.ofNat, dif_pos hv]
  rfl

theorem toNat_toUpper (c : Char) :
    (Char.toUpper c).toNat
      = if 97 ≤ c.toNat ∧ c.toNat ≤ 122 then c.toNat - 32 else c.toNat := by
  have hdef : Char.toUpper c
      = if 97 ≤ c.toNat ∧ c.toNat ≤ 122 then Char.ofNat (c.toNat - 32) else c := rfl
  rw [hdef]
  split_ifs with h
  · exact toNat_ofNat_of_lt (by omega)
  · rfl

theorem char_eq_of_toNat_eq {a b : Char} (h : a.toNat = b.toNat) : a = b := by
  apply Char.ext
  exact UInt32.toNat.inj h

theorem toUpper_toUpper (c : Char) :
    Char.toUpper (Char.toUpper c) = Char.toUpper c := by
  apply char_eq_of_toNat_eq
  rw [toNat_toUpper (Char.toUpper c), toNat_toUpper c]
  split_ifs <;> omega

theorem toUpper_ne_dash {c : Char} (h : c ≠ '-') : Char.toUpper c ≠ '-' := by
  intro he
  have ht : (Char.toUpper c).toNat = 45 := by rw [he]; rfl
  rw [toNat_toUpper c] at ht
  have hc : c.toNat ≠ 45 := by
    intro hn
    exact h (char_eq_of_toNat_eq hn)
  split_ifs at ht <;> omega

/-! ### Normalization lemmas -/

theorem normalizeCode_cons (c : Char) (t : List Char) :
    normalizeCode (c :: t)
      = if c = '-' then normalizeCode t else Char.toUpper c :: normalizeCode t := by
  by_cases h : c = '-' <;>
    simp [normalizeCode, List.filter_cons, h]

theorem normalizeCode_idem (s : List Char) :
    normalizeCode (normalizeCode s) = normalizeCode s := by
  induction s with
  | nil => rfl
  | cons c t ih =>
    rw [normalizeCode_cons]
    by_cases hc : c = '-'
    · rw [if_pos hc]; exact ih
    · rw [if_neg hc, normalizeCode_cons, if_neg (toUpper_ne_dash hc),
        toUpper_toUpper, ih]

theorem validateCode_eq_all_norm (s : List Char) :
    validateCode s = (normalizeCode s).all (fun c => CROCKFORD_ALPHABET.contains c) := rfl

/-! ### generateCode lemmas -/

theorem alphabet_getD_mem (b : Nat) :
    CROCKFORD_ALPHABET.getD (b % CROCKFORD_ALPHABET.length) '0' ∈ CROCKFORD_ALPHABET := by
  have hlen : CROCKFORD_ALPHABET.length = 32 := rfl
  have h : b % CROCKFORD_ALPHABET.length < CROCKFORD_ALPHABET.length := by
    rw [hlen]; exact Nat.mod_lt _ (by omega)
  rw [List.getD_eq_getElem?_getD, List.getElem?_eq_getElem h]
  exact List.getElem_mem h

theorem generateCodeAux_tail (sep : List Char) (sp : Int) (len : Nat) :
    ∀ (rest : List Nat) (i : Nat), sp - 1 < (i : Int) →
      generateCodeAux sep sp len i rest = codeSymbols rest := by
  intro rest
  induction rest with
  | nil => intro i _; rfl
  | cons b t ih =>
    intro i hi
    rw [generateCodeAux, if_neg (by omega), List.nil_append, codeSymbols, List.map_cons]
    rw [ih (i + 1) (by push_cast; omega)]
    rfl

theorem generateCodeAux_nosep (sep : List Char) (sp : Int) (len : Nat)
    (hns : ∀ j : Nat, ¬((j : Int) = sp - 1 ∧ j < len - 1)) :
    ∀ (rest : List Nat) (i : Nat),
      generateCodeAux sep sp len i rest = codeSymbols rest := by
  intro rest
  induction rest with
  | nil => intro i; rfl
  | cons b t ih =>
    intro i
    rw [generateCodeAux, if_neg (hns i), List.nil_append, codeSymbols, List.map_cons]
    rw [ih (i + 1)]
    rfl

theorem generateCodeAux_split (sep : List Char) (pos : Nat) (len : Nat)
    (hpos1 : 1 ≤ pos) (hposlen : pos < len) :
    ∀ (rest : List Nat) (i : Nat), i < pos → pos ≤ i + rest.length →
      i + rest.length = len →
      generateCodeAux sep (pos : Int) len i rest
        = codeSymbols (rest.take (pos - i)) ++ sep ++ codeSymbols (rest.drop (pos - i)) := by
  intro rest
  induction rest with
  | nil => intro i h1 h2 _; simp at h1 h2; omega
  | cons b t ih =>
    intro i h1 h2 hlen
    simp only [List.length_cons] at h2 hlen
    by_cases hfire : i + 1 = pos
    · have htake : pos - i = 1 := by omega
      rw [generateCodeAux, if_pos (by constructor <;> omega)]
      rw [generateCodeAux_tail sep (pos : Int) len t (i + 1) (by push_cast; omega)]
      rw [htake, List.take_succ_cons, List.take_zero, List.drop_succ_cons, List.drop_zero]
      simp [codeSymbols]
    · have hcond : ¬((i : Int) = (pos : Int) - 1 ∧ i < len - 1) := by
        intro hc
        have := hc.1
        omega
      rw [generateCodeAux, if_neg hcond, List.nil_append]
      rw [ih (i + 1) (by omega) (by omega) (by omega)]
      have ht : pos - i = (pos - (i + 1)) + 1 := by omega
      rw [ht, List.take_succ_cons, List.drop_succ_cons]
      simp [codeSymbols]

/-- C1: every character of a generated code, for any drawn bytes, separator
and separator position, is either a symbol of the Crockford alphabet or a
character of the separator string; in particular every non-separator
character lies in the 32-symbol alphabet. -/
theorem generateCode_chars_in_alphabet (bytes : List Nat) (sep : List Char)
    (sp : Int) (c : Char) (hc : c ∈ generateCode bytes sep sp) :
    c ∈ CROCKFORD_ALPHABET ∨ c ∈ sep := by
  have haux : ∀ (rest : List Nat) (i : Nat),
      c ∈ generateCodeAux sep sp bytes.length i rest →
      c ∈ CROCKFORD_ALPHABET ∨ c ∈ sep := by
    intro rest
    induction rest with
    | nil => intro i h; simp [generateCodeAux] at h
    | cons b t ih =>
      intro i h
      rw [generateCodeAux] at h
      rcases List.mem_cons.mp h with hhead | htail
      · exact Or.inl (hhead ▸ alphabet_getD_mem b)
      · rcases List.mem_append.mp htail with hsep | hrec
        · split at hsep
          · exact Or.inr hsep
          · simp at hsep
        · exact ih (i + 1) hrec
  exact haux bytes 0 hc

/-- C1 witness: at bytes `[0, 9, 255, 31]`, separator `"-"`, position 2,
the character at index 0 of the generated code is in the alphabet. -/
theorem generateCode_chars_in_alphabet_witness :
    'J' ∈ generateCode [0, 9, 255, 18] ['-'] 2
    ∧ ('J' ∈ CROCKFORD_ALPHABET ∨ 'J' ∈ ['-']) :=
  ⟨by decide, generateCode_chars_in_alphabet [0, 9, 255, 18] ['-'] 2 'J' (by decide)⟩

/-- C2: the separator is inserted exactly once, immediately after the symbol
at the 1-indexed `separatorPosition` (first conjunct), unless that position
is the last character, in which case no separator appears (second conjunct);
with the default parameters, length 8, separator `"-"` and position 4, the
code has length 9 and the separator sits at index 4 (third conjunct). -/
theorem generateCode_separator_insertion (bytes : List Nat) (sep : List Char)
    (pos : Nat) :
    (1 ≤ pos → pos < bytes.length →
      generateCode bytes sep (pos : Int)
        = codeSymbols (bytes.take pos) ++ sep ++ codeSymbols (bytes.drop pos))
    ∧ (pos = bytes.length →
      generateCode bytes sep (pos : Int) = codeSymbols bytes)
    ∧ (bytes.length = 8 →
      (generateCode bytes ['-'] ((4 : Nat) : Int)).length = 9
      ∧ (generateCode bytes ['-'] ((4 : Nat) : Int))[4]? = some '-') := by
  refine ⟨?_, ?_, ?_⟩
  · intro h1 h2
    have := generateCodeAux_split sep pos bytes.length h1 h2 bytes 0
      (by omega) (by omega) (by omega)
    simpa [generateCode] using this
  · intro hend
    apply generateCodeAux_nosep
    intro j hj
    omega
  · intro hlen8
    have hsplit := generateCodeAux_split ['-'] 4 bytes.length (by omega)
      (by omega) bytes 0 (by omega) (by omega) (by omega)
    have hgen : generateCode bytes ['-'] ((4 : Nat) : Int)
        = codeSymbols (bytes.take 4) ++ ['-'] ++ codeSymbols (bytes.drop 4) := by
      simpa [generateCode] using hsplit
    have hlt : (codeSymbols (bytes.take 4)).length = 4 := by
      simp [codeSymbols, hlen8]
    constructor
    · rw [hgen]
      simp [codeSymbols, hlen8]
    · rw [hgen, List.append_assoc, List.getElem?_append_right (by omega), hlt]
      simp

/-- C2 witness: with eight concrete bytes, separator `"-"` and position 4,
the generated code splits as four symbols, the dash, four symbols, and has
length 9 with the dash at index 4. -/
theorem generateCode_separator_insertion_witness :
    generateCode [0, 1, 2, 3, 4, 5, 6, 7] ['-'] ((4 : Nat) : Int)
      = codeSymbols [0, 1, 2, 3] ++ ['-'] ++ codeSymbols [4, 5, 6, 7]
    ∧ (generateCode [0, 1, 2, 3, 4, 5, 6, 7] ['-'] ((4 : Nat) : Int)).length = 9
    ∧ (generateCode [0, 1, 2, 3, 4, 5, 6, 7] ['-'] ((4 : Nat) : Int))[4]? = some '-' :=
  ⟨(generateCode_separator_insertion [0, 1, 2, 3, 4, 5, 6, 7] ['-'] 4).1
      (by decide) (by decide),
   ((generateCode_separator_insertion [0, 1, 2, 3, 4, 5, 6, 7] ['-'] 4).2.2
      (by decide)).1,
   ((generateCode_separator_insertion [0, 1, 2, 3, 4, 5, 6, 7] ['-'] 4).2.2
      (by decide)).2⟩

/-- C3: validation is invariant under normalization, for every input string:
validating a normalized code gives the same boolean as validating the raw
code, because validation itself strips separators and uppercases. -/
theorem validate_normalize_eq_validate (x : List Char) :
    validateCode (normalizeCode x) = validateCode x := by
  rw [validateCode_eq_all_norm, validateCode_eq_all_norm, normalizeCode_idem]

/-- C4: normalization is idempotent: normalizing an already-normalized
string changes nothing, for every input string. -/
theorem normalizeCode_idempotent (x : List Char) :
    normalizeCode (normalizeCode x) = normalizeCode x :=
  normalizeCode_idem x

/-- C5: `validateCode` and `normalizeCode` are total functions over strings
(they are plain Lean functions, so no input raises an error), `validateCode`
returns `true` exactly when every character left after stripping separators
and uppercasing belongs to the alphabet, any input that strips to the empty
string validates `true`, and in particular the empty string does. -/
theorem validateCode_total_spec (s : List Char) :
    (validateCode s = true ↔ ∀ c ∈ normalizeCode s, c ∈ CROCKFORD_ALPHABET)
    ∧ (normalizeCode s = [] → validateCode s = true)
    ∧ validateCode [] = true := by
  refine ⟨?_, ?_, rfl⟩
  · rw [validateCode_eq_all_norm]
    simp [List.all_eq_true, List.contains_iff_exists_mem_beq, beq_iff_eq]
  · intro hempty
    rw [validateCode_eq_all_norm, hempty]
    rfl

/-- C5 witness: the input `"i-"` normalizes to `"I"`, validates `false`
matching the membership characterization, and `"--"` strips to the empty
string and validates `true`. -/
theorem validateCode_total_spec_witness :
    (validateCode ['A', '-', 'b'] = true ↔ ∀ c ∈ normalizeCode ['A', '-', 'b'], c ∈ CROCKFORD_ALPHABET)
    ∧ validateCode ['-', '-'] = true
    ∧ validateCode [] = true :=
  ⟨(validateCode_total_spec ['A', '-', 'b']).1,
   (validateCode_total_spec ['-', '-']).2.1 (by decide),
   (validateCode_total_spec []).2.2⟩

/-! ## src/types.ts: the typed session records

Timestamps (`Date` values) are their millisecond counts as `Int`. -/

/-- The interface `RVTarget` from src/types.ts. -/
structure RVTarget where
  code : List Char
  targetUrl : List Char
  targetDescription : List Char
  targetSource : List Char
  revealed : Bool
  revealedAt : Option Int
deriving DecidableEq

/-- The interface `RVSession` from src/types.ts. -/
structure RVSession where
  id : List Char
  name : Option (List Char)
  targets : List RVTarget
  createdAt : Int
  revealAt : Int
  notes : Option (List Char)
deriving DecidableEq

/-! ## src/commands/create.ts -/

/-- Reveal-time computation of the create command (create.ts lines 53-54):
`revealAt = new Date(createdAt.getTime() + duration * 60 * 1000)` where
`duration = parseInt(options.duration, 10)`. -/
def createRevealAt (createdAt : Int) (duration : Int) : Int :=
  createdAt + duration * 60 * 1000

/-- The session record built by the create command (create.ts lines 78-84):
`notes` is never set and `revealAt` comes from `createRevealAt`. -/
def createSession (id : List Char) (name : Option (List Char))
    (targets : List RVTarget) (createdAt : Int) (duration : Int) : RVSession :=
  { id := id, name := name, targets := targets, createdAt := createdAt,
    revealAt := createRevealAt createdAt duration, notes := none }

/-- C6 counterexample: the claim quantifies over every parsed duration, but
the create command never checks the sign of `parseInt(options.duration)`:
with duration `-1` the session of creation time 0 has reveal time `-60000`,
strictly before its creation time, so `revealAt ≥ createdAt` fails. -/
theorem createSession_negative_duration_cex :
    ¬ ((createSession ['s'] none [] 0 (-1)).createdAt
        ≤ (createSession ['s'] none [] 0 (-1)).revealAt) := by decide

/-- C6 amended: for every parsed duration that is nonnegative (which includes
every duration the documented CLI usage produces), the session built by the
create command has its reveal timestamp at or after its creation timestamp. -/
theorem createSession_revealAt_ge_createdAt (id : List Char)
    (name : Option (List Char)) (targets : List RVTarget)
    (createdAt : Int) (duration : Int) (hd : 0 ≤ duration) :
    (createSession id name targets createdAt duration).createdAt
      ≤ (createSession id name targets createdAt duration).revealAt := by
  simp only [createSession, createRevealAt]
  nlinarith

/-- C6 amended witness: with the default duration 60 and creation time 0 the
reveal time is not before the creation time. -/
theorem createSession_revealAt_ge_createdAt_witness :
    (0 : Int) ≤ 60
    ∧ (createSession ['s'] none [] 0 60).createdAt
        ≤ (createSession ['s'] none [] 0 60).revealAt :=
  ⟨by decide, createSession_revealAt_ge_createdAt ['s'] none [] 0 60 (by decide)⟩

/-- Model of `parseInt(s, 10)` as used on `options.targets` and
`options.duration`: skip leading whitespace, consume an optional sign and
then the longest prefix of decimal digits; the result is `none` (NaN) when
no digit is consumed, ignoring any trailing non-digit suffix. -/
def parseIntTen (s : List Char) : Option Int :=
  let body := s.dropWhile (fun c => c = ' ' || c = '\t' || c = '\n' || c = '\r')
  let digitsOf : List Char → List Char :=
    List.takeWhile (fun c => '0' ≤ c && c ≤ '9')
  let valueOf : List Char → Nat :=
    List.foldl (fun acc c => acc * 10 + (c.toNat - 48)) 0
  match body with
  | '-' :: rest =>
    let ds := digitsOf rest
    if ds = [] then none else some (-(valueOf ds : Int))
  | '+' :: rest =>
    let ds := digitsOf rest
    if ds = [] then none else some ((valueOf ds : Int))
  | rest =>
    let ds := digitsOf rest
    if ds = [] then none else some ((valueOf ds : Int))

/-- The target-count guard of the create command (create.ts line 43):
`targetCount < 1 || targetCount > 10`, where `targetCount` is a JavaScript
number that may be NaN (`none`); every comparison against NaN is false. -/
def invalidTargetCount (targetCount : Option Int) : Bool :=
  match targetCount with
  | some n => decide (n < 1) || decide (n > 10)
  | none => false

/-- C10: the create command's guard rejects exactly the parsed counts that
are strictly below 1 or strictly above 10; when `parseInt` on the
`--targets` string yields NaN, both comparisons are false, the invalid-count
exit path is not taken, and creation proceeds with the NaN count. -/
theorem invalidTargetCount_spec (s : List Char) (n : Int) :
    (parseIntTen s = none → invalidTargetCount (parseIntTen s) = false)
    ∧ (invalidTargetCount (some n) = true ↔ (n < 1 ∨ 10 < n)) := by
  constructor
  · intro h
    rw [h]
    rfl
  · simp [invalidTargetCount]

/-- C10 witness: the non-numeric string `"abc"` parses to NaN and is not
rejected by the guard, while the out-of-range count 11 is rejected. -/
theorem invalidTargetCount_spec_witness :
    parseIntTen ['a', 'b', 'c'] = none
    ∧ invalidTargetCount (parseIntTen ['a', 'b', 'c']) = false
    ∧ (invalidTargetCount (some 11) = true ↔ ((11 : Int) < 1 ∨ 10 < (11 : Int))) :=
  ⟨by decide,
   (invalidTargetCount_spec ['a', 'b', 'c'] 11).1 (by decide),
   (invalidTargetCount_spec ['a', 'b', 'c'] 11).2⟩

/-! ## src/commands/reveal.ts -/

/-- Inner loop of the target search (reveal.ts lines 26-35): for one
session, `targets.findIndex(t => normalizeCode(t.code).toUpperCase() ===
normalizedCode)` together with the found target. -/
def findTargetInSession (normalizedCode : List Char) :
    List RVTarget → Nat → Option (Nat × RVTarget)
  | [], _ => none
  | t :: rest, i =>
    if (normalizeCode t.code).map Char.toUpper = normalizedCode then some (i, t)
    else findTargetInSession normalizedCode rest (i + 1)

/-- Outer loop of the target search (reveal.ts lines 26-35): the first
session, scanned in order, holding a target whose normalized uppercased code
equals the normalized uppercased query. -/
def findSessionTarget (normalizedCode : List Char) :
    List RVSession → Option (RVSession × Nat × RVTarget)
  | [] => none
  | s :: rest =>
    match findTargetInSession normalizedCode s.targets 0 with
    | some (i, t) => some (s, i, t)
    | none => findSessionTarget normalizedCode rest

/-- Observable outcome of one run of the reveal command. -/
inductive RevealOutcome where
  /-- No session holds the queried code: error message and exit 1. -/
  | notFound
  /-- The target was already revealed: it is re-displayed unchanged and the
  command returns without writing anything. -/
  | alreadyRevealed (target : RVTarget)
  /-- Reveal time not reached, no `--force`, and the user declined the
  confirmation prompt: no write. -/
  | cancelled
  /-- The target was flipped to revealed and the updated session was
  persisted with `saveSession`. -/
  | saved (session : RVSession)
deriving DecidableEq

/-- The reveal command (reveal.ts lines 14-94): locate the target by
normalized code; if it is already revealed, re-display it and return;
otherwise gate on `now >= session.revealAt`, the `--force` flag and the
interactive confirmation, and on an allowed reveal set the target's
`revealed` flag and `revealedAt := now` and save the session. -/
def revealCommand (sessions : List RVSession) (code : List Char)
    (force : Bool) (now : Int) (confirmAnswer : Bool) : RevealOutcome :=
  let normalizedCode := (normalizeCode code).map Char.toUpper
  match findSessionTarget normalizedCode sessions with
  | none => RevealOutcome.notFound
  | some (s, i, t) =>
    if t.revealed then RevealOutcome.alreadyRevealed t
    else
      let canReveal := decide (s.revealAt ≤ now)
      if !canReveal && !force && !confirmAnswer then RevealOutcome.cancelled
      else RevealOutcome.saved
        { s with targets :=
            s.targets.set i { t with revealed := true, revealedAt := some now } }

/-- C7: invoking the reveal command on a code whose located target already
has `revealed = true` re-displays that target unchanged and terminates
without persisting: the outcome is `alreadyRevealed` with the stored target
itself (original `revealedAt` included), and no `saved` outcome occurs, so
no field of any stored session changes. -/
theorem revealCommand_already_revealed (sessions : List RVSession)
    (code : List Char) (force : Bool) (now : Int) (confirmAnswer : Bool)
    (s : RVSession) (i : Nat) (t : RVTarget)
    (hfind : findSessionTarget ((normalizeCode code).map Char.toUpper) sessions
      = some (s, i, t))
    (hrev : t.revealed = true) :
    revealCommand sessions code force now confirmAnswer
      = RevealOutcome.alreadyRevealed t := by
  simp only [revealCommand]
  rw [hfind]
  simp [hrev]

/-- Concrete already-revealed target used as an input below. -/
def exRevTarget : RVTarget :=
  { code := ['A', 'B', '-', '3'], targetUrl := ['u'],
    targetDescription := ['d'], targetSource := ['x'],
    revealed := true, revealedAt := some 5 }

/-- Concrete stored session holding `exRevTarget`. -/
def exRevSession : RVSession :=
  { id := ['s'], name := none, targets := [exRevTarget],
    createdAt := 0, revealAt := 100, notes := none }

/-- C7 witness: a stored session holding the already-revealed target
`AB-3` with reveal timestamp 5; querying `ab3` re-displays that target with
its original timestamp and persists nothing. -/
theorem revealCommand_already_revealed_witness :
    revealCommand [exRevSession] ['a', 'b', '3'] false 0 false
      = RevealOutcome.alreadyRevealed exRevTarget :=
  revealCommand_already_revealed [exRevSession] ['a', 'b', '3'] false 0 false
    exRevSession 0 exRevTarget (by decide) (by decide)

/-! ## src/services/storage-service.ts

The persistence layer works on untyped JavaScript runtime values: through
`JSON.stringify` a `Date` field becomes its ISO-8601 string
(`Date.prototype.toJSON`), and `JSON.parse` gives the string back, which
`new Date(string)` turns into a `Date` again.  `JVal` is the universe of
values a timestamp field can hold at runtime: a `Date` object, or a string
holding the ISO-8601 rendering of an instant.  The rendering is injective
and `new Date` recovers the instant, so the string is represented by the
instant it denotes. -/

namespace Storage

/-- Runtime value of a timestamp field: a `Date` object carrying an instant,
or the ISO-8601 string rendering of an instant. -/
inductive JVal where
  /-- A JavaScript `Date` object with the given millisecond count. -/
  | vdate (ms : Int)
  /-- A JavaScript string holding the ISO-8601 rendering of the instant
  `ms`, as produced by `Date.prototype.toJSON`. -/
  | viso (ms : Int)
deriving DecidableEq

/-- A target as it sits in a session file or in memory: same fields as
`RVTarget`, with the optional `revealedAt` timestamp as a runtime value. -/
structure JTarget where
  code : List Char
  targetUrl : List Char
  targetDescription : List Char
  targetSource : List Char
  revealed : Bool
  revealedAt : Option JVal
deriving DecidableEq

/-- A session as it sits in a session file or in memory: same fields as
`RVSession`, with the two timestamps as runtime values. -/
structure JSession where
  id : List Char
  name : Option (List Char)
  targets : List JTarget
  createdAt : JVal
  revealAt : JVal
deriving DecidableEq

/-- Serialization of one timestamp field by `JSON.stringify`: a `Date`
becomes its ISO-8601 string, a string stays itself. -/
def serializeVal : JVal → JVal
  | JVal.vdate ms => JVal.viso ms
  | JVal.viso ms => JVal.viso ms

/-- Effect of `new Date(v)` on a runtime timestamp value: an ISO-8601
string parses back to the instant it denotes; a `Date` is copied. -/
def parseDateVal : JVal → JVal
  | JVal.viso ms => JVal.vdate ms
  | JVal.vdate ms => JVal.vdate ms

/-- The method `JsonStorageService.saveSession` (storage-service.ts lines
93-104), restricted to the file content it writes: the session record with
every `Date` field, including each target's `revealedAt`, rendered as its
ISO-8601 string by `JSON.stringify`. -/
def saveSession (s : JSession) : JSession :=
  { s with
    createdAt := serializeVal s.createdAt,
    revealAt := serializeVal s.revealAt,
    targets := s.targets.map
      (fun t => { t with revealedAt := t.revealedAt.map serializeVal }) }

/-- The method `JsonStorageService.getSession` (storage-service.ts lines
106-126) applied to a parsed session file: it converts `session.createdAt`
and `session.revealAt` back to `Date` objects, then checks a session-level
`session.revealedAt` field - which `RVSession` does not have, so that check
is always falsy and skipped - and never touches `session.targets`, whose
`revealedAt` strings are returned as strings. -/
def getSession (stored : JSession) : JSession :=
  { stored with
    createdAt := parseDateVal stored.createdAt,
    revealAt := parseDateVal stored.revealAt }

/-- Millisecond count of a runtime timestamp value (`getTime()` on a date;
for a string this is the instant its text denotes, only used for sorting). -/
def msOfVal : JVal → Int
  | JVal.vdate ms => ms
  | JVal.viso ms => ms

/-- Outcome of one `fs.readFile` of a session file inside `getSession`. -/
inductive ReadOutcome where
  /-- The file exists and parses to this stored session. -/
  | found (stored : JSession)
  /-- ENOENT: the file is absent, `getSession` returns null. -/
  | missing
  /-- Any other I/O failure: `getSession` logs and re-throws the error. -/
  | ioFailure (msg : List Char)
deriving DecidableEq

/-- Error flow of `JsonStorageService.getSession` around one file read
(storage-service.ts lines 106-126): ENOENT becomes `null` (`ok none`), any
other failure is re-thrown (`error`), success returns the parsed session
with its two session-level timestamps converted. -/
def getSessionOutcome : ReadOutcome → Except (List Char) (Option JSession)
  | ReadOutcome.found stored => Except.ok (some (getSession stored))
  | ReadOutcome.missing => Except.ok none
  | ReadOutcome.ioFailure msg => Except.error msg

/-- Loop body of `getAllSessions` (storage-service.ts lines 136-144): walk
the directory entries, keep the `.json` files, read each one through
`getSession` and collect the non-null results, propagating any thrown
error to the surrounding try/catch. -/
def collectSessions : List (List Char × ReadOutcome) →
    Except (List Char) (List JSession)
  | [] => Except.ok []
  | (fileName, outcome) :: rest =>
    if ['.', 'j', 's', 'o', 'n'].isSuffixOf fileName then
      match getSessionOutcome outcome with
      | Except.error e => Except.error e
      | Except.ok none => collectSessions rest
      | Except.ok (some s) =>
        match collectSessions rest with
        | Except.error e => Except.error e
        | Except.ok ss => Except.ok (s :: ss)
    else collectSessions rest

/-- The method `JsonStorageService.getAllSessions` (storage-service.ts lines
128-152).  Input: the result of `fs.readdir` as directory entries paired
with their read outcomes, or the readdir error.  The whole body sits in a
try/catch whose handler logs `Failed to list sessions` with the error and
returns the empty list, so the returned `Except` is in fact always `ok`.
The first component lists the messages printed by `logger.error`, each
carrying the error value. -/
def getAllSessions
    (listing : Except (List Char) (List (List Char × ReadOutcome))) :
    List (List Char) × Except (List Char) (List JSession) :=
  match listing with
  | Except.error e => ([e], Except.ok [])
  | Except.ok files =>
    match collectSessions files with
    | Except.error e => ([e], Except.ok [])
    | Except.ok ss =>
      ([], Except.ok (ss.mergeSort
        (fun a b => decide (msOfVal b.createdAt ≤ msOfVal a.createdAt))))

/-- The method `UnsplashService.testConnection` (unsplash-service.ts lines
54-65): one API request whose failure is swallowed into `false`. -/
def testConnection (apiResult : Except (List Char) Unit) : Bool :=
  match apiResult with
  | Except.ok _ => true
  | Except.error _ => false

end Storage

/-- Concrete in-memory session whose only target is revealed at instant 5:
the input on which the save/get round-trip loses the `Date` type. -/
def exStoredSession : Storage.JSession :=
  { id := ['s'], name := none,
    targets := [{ code := ['A'], targetUrl := ['u'],
                  targetDescription := ['d'], targetSource := ['x'],
                  revealed := true,
                  revealedAt := some (Storage.JVal.vdate 5) }],
    createdAt := Storage.JVal.vdate 0,
    revealAt := Storage.JVal.vdate 60000 }

/-- C8: the save/get round-trip is NOT the identity.  `saveSession`
serializes every timestamp, including each target's `revealedAt`, as an
ISO-8601 string, but `getSession` converts only the session-level
`createdAt` and `revealAt` back into `Date` values (its `revealedAt`
conversion addresses a session-level field that does not exist): the
session read back carries its target's `revealedAt` as the ISO string, not
the saved `Date`, contradicting the declared type `revealedAt?: Date` and
the intent of the conversion comment in the source. -/
theorem saveSession_getSession_roundtrip_fails :
    Storage.getSession (Storage.saveSession exStoredSession) ≠ exStoredSession
    ∧ (Storage.getSession (Storage.saveSession exStoredSession)).createdAt
        = exStoredSession.createdAt
    ∧ (Storage.getSession (Storage.saveSession exStoredSession)).revealAt
        = exStoredSession.revealAt
    ∧ (Storage.getSession (Storage.saveSession exStoredSession)).targets.map
        (fun t => t.revealedAt)
        = [some (Storage.JVal.viso 5)] := by
  refine ⟨by decide, rfl, rfl, rfl⟩

/-- C9 counterexample: a storage I/O failure while listing sessions is
neither re-thrown nor turned into an exit: `getAllSessions` catches it and
returns the empty session list as a success value. -/
theorem getAllSessions_failure_not_rethrown_cex :
    (Storage.getAllSessions (Except.error ['E'])).2 = Except.ok []
    ∧ (Storage.getAllSessions (Except.error ['E'])).2 ≠ Except.error ['E'] := by
  exact ⟨rfl, fun h => Except.noConfusion h⟩

/-- C9 amended: a failure while listing sessions is reported through a
printed `logger.error` message but degrades to an empty session list
(first conjunct: the error is logged and the call still succeeds with `[]`,
and the same happens when a read inside the loop fails, second conjunct);
a non-ENOENT failure while reading a single session is re-thrown (third
conjunct); the provider connectivity self-test alone degrades to a plain
boolean (fourth conjunct). -/
theorem getAllSessions_failure_logged_and_empty (e : List Char)
    (fileName : List Char) :
    Storage.getAllSessions (Except.error e) = ([e], Except.ok [])
    ∧ (['.', 'j', 's', 'o', 'n'].isSuffixOf fileName = true →
      Storage.getAllSessions
          (Except.ok [(fileName, Storage.ReadOutcome.ioFailure e)])
        = ([e], Except.ok []))
    ∧ Storage.getSessionOutcome (Storage.ReadOutcome.ioFailure e)
        = Except.error e
    ∧ Storage.testConnection (Except.error e) = false := by
  refine ⟨rfl, ?_, rfl, rfl⟩
  intro hsuffix
  simp only [Storage.getAllSessions, Storage.collectSessions, hsuffix,
    if_true, Storage.getSessionOutcome]

/-- C9 amended witness: at the concrete file name `a.json` and error
message `E`, the listing failure and the in-loop read failure both degrade
to a logged message plus the empty list, the single read re-throws, and the
connectivity test returns false. -/
theorem getAllSessions_failure_logged_and_empty_witness :
    Storage.getAllSessions (Except.error ['E']) = ([['E']], Except.ok [])
    ∧ Storage.getAllSessions
        (Except.ok [(['a', '.', 'j', 's', 'o', 'n'],
          Storage.ReadOutcome.ioFailure ['E'])])
      = ([['E']], Except.ok [])
    ∧ Storage.getSessionOutcome (Storage.ReadOutcome.ioFailure ['E'])
        = Except.error ['E']
    ∧ Storage.testConnection (Except.error ['E']) = false :=
  ⟨(getAllSessions_failure_logged_and_empty ['E'] ['a', '.', 'j', 's', 'o', 'n']).1,
   (getAllSessions_failure_logged_and_empty ['E'] ['a', '.', 'j', 's', 'o', 'n']).2.1
     (by decide),
   (getAllSessions_failure_logged_and_empty ['E'] ['a', '.', 'j', 's', 'o', 'n']).2.2.1,
   (getAllSessions_failure_logged_and_empty ['E'] ['a', '.', 'j', 's', 'o', 'n']).2.2.2⟩
